import Mathlib

/-!
Verification of the `slowdown` HTTP-delay middleware (delay.go).

The Go code is shallowly embedded: `time.Duration` becomes `Int`
(nanoseconds), the config struct and the option providers become a Lean
structure and functions over it, `config.sleep`'s duration computation
becomes pure functions, and the handler closure returned by `Delay`
becomes a function producing the ordered list of its observable steps
together with the final response state. The response writer is abstract:
a wrapped handler is a pure transformer of an abstract response state.
Request-context cancellation is modelled by the two values `isDone`
samples at its two checkpoints (the closure reads `ctx.Done()` exactly
twice, plus once inside each cancellable wait).
-/

namespace Slowdown

/-- Go `time.Duration`: a count of nanoseconds (int64). The value is
modelled as an unbounded `Int`; the only place the Go code checks 64-bit
overflow is inside `time.ParseDuration`, whose explicit checks against
2^63 are modelled below. -/
abbrev Duration := Int

/-- The two program points where the closure returned by `Delay` calls
`isDone(r.Context())`. -/
inductive Checkpoint
  | afterBeforeWait
  | afterHandler
  deriving DecidableEq

/-- An HTTP request, as far as delay.go reads it: its header map, and the
state of its context's cancellation signal at the two `isDone`
checkpoints. (A Go context is monotone - once done it stays done - but no
claim needs that, so the two samples are independent fields.) -/
structure Request where
  headers : List (String × String) := []
  cancelledAfterBeforeWait : Bool := false
  cancelledAfterHandler : Bool := false

/-- `r.Header.Get(name)`: the first value recorded for the header, or ""
when the header is absent. Keys are compared literally; Go canonicalizes
MIME header keys on both store and lookup, which renames keys uniformly
and is invisible to every property below. -/
def Request.headerGet (r : Request) (name : String) : String :=
  match r.headers.find? (fun kv => kv.1 == name) with
  | some kv => kv.2
  | none => ""

/-- `isDone(ctx)` of delay.go: whether the request context's Done channel
is already closed, sampled at the given checkpoint. -/
def isDone (r : Request) : Checkpoint → Bool
  | .afterBeforeWait => r.cancelledAfterBeforeWait
  | .afterHandler => r.cancelledAfterHandler

/-- The `config` struct of delay.go. Field defaults are Go zero values;
`Delay` overrides `fixedDurationBefore` and `max` before applying
options. -/
structure Config where
  fixedDurationBefore : Duration := 0
  fixedDurationAfter : Duration := 0
  headerPrefix : String := ""
  max : Duration := 0
  conditions : List (Request → Bool) := []

/-- `unitMap` of Go package `time`: nanoseconds per unit suffix. -/
def unitMap : String → Option Nat
  | "ns" => some 1
  | "us" => some 1000
  | "µs" => some 1000
  | "μs" => some 1000
  | "ms" => some 1000000
  | "s" => some 1000000000
  | "m" => some 60000000000
  | "h" => some 3600000000000
  | _ => none

/-- `leadingInt` of Go package `time`: consume leading decimal digits
into an accumulator, failing (`none`) on overflow past 2^63 (Go works in
uint64 with these explicit checks). Returns the value and the rest of the
input. -/
def leadingInt : Nat → List Char → Option (Nat × List Char)
  | x, [] => some (x, [])
  | x, c :: rest =>
    if !c.isDigit then some (x, c :: rest)
    else if x > 2 ^ 63 / 10 then none
    else
      let y := x * 10 + (c.toNat - 48)
      if y > 2 ^ 63 then none
      else leadingInt y rest

/-- `leadingFraction` of Go package `time`: consume fractional digits; on
overflow keep consuming input but stop accumulating value and scale.
Returns (digits value, scale, rest). -/
def leadingFraction : Nat → Nat → Bool → List Char → Nat × Nat × List Char
  | x, scale, _, [] => (x, scale, [])
  | x, scale, overflow, c :: rest =>
    if !c.isDigit then (x, scale, c :: rest)
    else if overflow then leadingFraction x scale true rest
    else if x > (2 ^ 63 - 1) / 10 then leadingFraction x scale true rest
    else
      let y := x * 10 + (c.toNat - 48)
      if y > 2 ^ 63 then leadingFraction x scale true rest
      else leadingFraction y (scale * 10) false rest

/-- The tail of one iteration of the loop of `time.ParseDuration`: after
the integer digits `v` (consumed: `pre`) and fractional digits `f` over
`scale` (consumed: `post`), require a unit suffix, look it up, and
accumulate into the running total `d`, with Go's overflow checks.
Go computes the fractional contribution as
`uint64(float64(f) * (float64(unit) / scale))`; it is modelled here by
the exact `f * unit / scale`, which can differ from the float64 route
only in the final nanosecond of rounding (no property below depends on
fractional values). Returns the new total and the remaining input. -/
def parseUnit (v f scale : Nat) (pre post : Bool) (s2 : List Char) (d : Nat) :
    Option (Nat × List Char) :=
  if !pre && !post then none
  else
    let isUnitChar : Char → Bool := fun c => !(c == '.' || c.isDigit)
    let u := s2.takeWhile isUnitChar
    let s3 := s2.dropWhile isUnitChar
    if u.isEmpty then none
    else
      match unitMap (String.mk u) with
      | none => none
      | some unit =>
        if v > 2 ^ 63 / unit then none
        else
          let v1 := v * unit
          let v2 := if f > 0 then v1 + f * unit / scale else v1
          if f > 0 && decide (v2 > 2 ^ 63) then none
          else
            let d2 := d + v2
            if d2 > 2 ^ 63 then none
            else some (d2, s3)

/-- The loop of `time.ParseDuration`, accumulating nanoseconds into `d`.
`fuel` bounds the iteration count; each iteration consumes at least the
one-character-or-more unit suffix, so `s.length + 1` is always enough. -/
def parseLoop : Nat → List Char → Nat → Option Nat
  | 0, _, _ => none
  | _ + 1, [], d => some d
  | fuel + 1, c0 :: rest, d =>
    if c0 == '.' || c0.isDigit then
      match leadingInt 0 (c0 :: rest) with
      | none => none
      | some (v, s1) =>
        let pre := s1.length != (c0 :: rest).length
        match s1 with
        | '.' :: s1' =>
          match leadingFraction 0 1 false s1' with
          | (f, scale, s2) =>
            match parseUnit v f scale pre (s2.length != s1'.length) s2 d with
            | none => none
            | some (d2, s3) => parseLoop fuel s3 d2
        | _ =>
          match parseUnit v 0 1 pre false s1 d with
          | none => none
          | some (d2, s3) => parseLoop fuel s3 d2
    else none

/-- Go `time.ParseDuration`: sign, the special case "0", then the unit
groups; `none` on any parse error. -/
def parseDuration (str : String) : Option Duration :=
  let s0 := str.data
  let signed : Bool × List Char :=
    match s0 with
    | '-' :: rest => (true, rest)
    | '+' :: rest => (false, rest)
    | _ => (false, s0)
  let neg := signed.1
  let s := signed.2
  if s = ['0'] then some 0
  else if s.isEmpty then none
  else
    match parseLoop (s.length + 1) s 0 with
    | none => none
    | some d =>
      if neg then some (-(d : Int))
      else if d > 2 ^ 63 - 1 then none
      else some ((d : Int))

/-- `readHeaderDuration(r, name)` of delay.go: read the named header and
parse it as a duration; `(0, false)` when the header is absent or its
value unparsable. -/
def readHeaderDuration (r : Request) (name : String) : Duration × Bool :=
  let value := r.headerGet name
  if value = "" then (0, false)
  else
    match parseDuration value with
    | none => (0, false)
    | some d => (d, true)

/-- The loop body of `config.checkConditions`: each predicate in order,
returning false at the first predicate that fails. -/
def checkList (r : Request) : List (Request → Bool) → Bool
  | [] => true
  | p :: ps => if p r then checkList r ps else false

/-- `config.checkConditions(r)` of delay.go. -/
def Config.checkConditions (cfg : Config) (r : Request) : Bool :=
  checkList r cfg.conditions

/-- The duration `d` computed by `config.sleep` before the cap: from the
phase header when `headerPrefix` is set, else the fixed duration for the
phase. `beforeOrAfter` is the literal string of the Go source; the Go
`switch` has no default case, so any other string leaves `var d` at its
zero value. -/
def Config.rawDuration (cfg : Config) (r : Request) (beforeOrAfter : String) :
    Duration :=
  if cfg.headerPrefix ≠ "" then
    (readHeaderDuration r (cfg.headerPrefix ++ "-" ++ beforeOrAfter)).1
  else if beforeOrAfter = "before" then cfg.fixedDurationBefore
  else if beforeOrAfter = "after" then cfg.fixedDurationAfter
  else 0

/-- The duration `config.sleep` hands to its cancellable wait: the raw
duration capped from above (`if d > cfg.max { d = cfg.max }` - there is
no lower clamp). -/
def Config.resolvedDuration (cfg : Config) (r : Request) (beforeOrAfter : String) :
    Duration :=
  if cfg.rawDuration r beforeOrAfter > cfg.max then cfg.max
  else cfg.rawDuration r beforeOrAfter

/-- The wait `config.sleep` performs: zero (it returns at once, adding no
delay) when some condition fails, else the resolved duration. -/
def Config.sleepDuration (cfg : Config) (r : Request) (beforeOrAfter : String) :
    Duration :=
  if cfg.checkConditions r then cfg.resolvedDuration r beforeOrAfter else 0

/-- The `Option` type of delay.go: a mutation of the config. (Named `Opt`
here because `Option` is Lean's.) -/
abbrev Opt := Config → Config

/-- `Fixed(before, after)` of delay.go. -/
def Fixed (before after : Duration) : Opt := fun cfg =>
  { cfg with fixedDurationBefore := before, fixedDurationAfter := after }

/-- `Header(prefix)` of delay.go. -/
def Header (pfx : String) : Opt := fun cfg =>
  { cfg with headerPrefix := pfx }

/-- `Max(maxDuration)` of delay.go. -/
def Max (maxDuration : Duration) : Opt := fun cfg =>
  { cfg with max := maxDuration }

/-- `Condition(predicate)` of delay.go: appends one predicate to the
condition list. -/
def Condition (predicate : Request → Bool) : Opt := fun cfg =>
  { cfg with conditions := cfg.conditions ++ [predicate] }

/-- The config `Delay` constructs: the defaults
`{fixedDurationBefore: 1 * time.Second, max: 20 * time.Second}`, then the
options applied in order. -/
def buildConfig (opts : List Opt) : Config :=
  opts.foldl (fun cfg opt => opt cfg)
    { fixedDurationBefore := 1000000000, max := 20000000000 }

/-- The observable steps of the closure returned by `Delay`, in program
order. A wait event records the duration handed to the cancellable
wait. -/
inductive Event
  | beforeWait (d : Duration)
  | invoke
  | afterWait (d : Duration)
  deriving DecidableEq

/-- The closure returned by `Delay`, for a wrapped handler modelled as a
pure transformer of an abstract response state `Resp` (everything the Go
handler writes through `w` is `h r`; the wrapper itself never writes).
Returns the ordered event trace and the final response state:
`cfg.before`, the first `isDone` check (return early if done), `h(w, r)`,
the second `isDone` check (return early if done), `cfg.after`. -/
def delayedHandler {Resp : Type} (cfg : Config) (h : Request → Resp → Resp)
    (r : Request) (resp : Resp) : List Event × Resp :=
  let evs := [Event.beforeWait (cfg.sleepDuration r "before")]
  if isDone r .afterBeforeWait then (evs, resp)
  else
    let resp2 := h r resp
    let evs := evs ++ [Event.invoke]
    if isDone r .afterHandler then (evs, resp2)
    else (evs ++ [Event.afterWait (cfg.sleepDuration r "after")], resp2)

/-- `Delay(h, opts...)` of delay.go: build the config from the defaults
and the options, and return the delayed handler closure. -/
def Delay {Resp : Type} (h : Request → Resp → Resp) (opts : List Opt) :
    Request → Resp → List Event × Resp :=
  fun r resp => delayedHandler (buildConfig opts) h r resp

/-! Shared lemmas. -/

/-- The cap in `config.sleep` bounds every resolved duration by
`cfg.max`, whatever the raw duration was. -/
theorem resolved_le_max (cfg : Config) (r : Request) (boa : String) :
    cfg.resolvedDuration r boa ≤ cfg.max := by
  unfold Config.resolvedDuration
  split
  · exact le_rfl
  · next hlt => exact le_of_not_lt hlt

/-- `checkConditions`'s loop is false on any list whose prefix up to some
failing predicate evaluates true: the predicates after the failing one
never matter. -/
theorem checkList_short_circuits (r : Request) (p : Request → Bool)
    (hp : p r = false) :
    ∀ (ps₁ ps₂ : List (Request → Bool)), (∀ q ∈ ps₁, q r = true) →
      checkList r (ps₁ ++ p :: ps₂) = false := by
  intro ps₁
  induction ps₁ with
  | nil => intro ps₂ _; simp [checkList, hp]
  | cons q qs ih =>
    intro ps₂ hq
    have hqr : q r = true := hq q (by simp)
    simpa [checkList, hqr] using ih ps₂ (fun x hx => hq x (by simp [hx]))

/-- When the first `isDone` check passes, the wrapped handler is invoked
and the final response state is exactly the handler's output, whether or
not the second check then cuts the after-wait. -/
theorem delayedHandler_runs {Resp : Type} (cfg : Config)
    (h : Request → Resp → Resp) (r : Request) (resp : Resp)
    (h1 : isDone r .afterBeforeWait = false) :
    Event.invoke ∈ (delayedHandler cfg h r resp).1
    ∧ (delayedHandler cfg h r resp).2 = h r resp := by
  cases h2 : isDone r .afterHandler <;> simp [delayedHandler, h1, h2]

/-! The claims. -/

/-- C1: for every request whose cancellation signal has fired by the end
of the before-wait (the first `isDone` check sees a done context), the
closure returned by `Delay` returns right after the before-wait: the
wrapped handler is never invoked, no after-wait occurs, and the response
state is untouched. -/
theorem cancelledEarly_skips_handler {Resp : Type}
    (h : Request → Resp → Resp) (opts : List Opt) (r : Request) (resp : Resp)
    (hc : isDone r .afterBeforeWait = true) :
    Delay h opts r resp
      = ([Event.beforeWait ((buildConfig opts).sleepDuration r "before")], resp)
    ∧ Event.invoke ∉ (Delay h opts r resp).1
    ∧ ∀ d, Event.afterWait d ∉ (Delay h opts r resp).1 := by
  refine ⟨?_, ?_, ?_⟩ <;> simp [Delay, delayedHandler, hc]

/-- Witness for the C1 theorem at a concrete cancelled request. -/
theorem cancelledEarly_skips_handler_witness :
    Delay (fun (_ : Request) (n : Nat) => n + 1) []
        { cancelledAfterBeforeWait := true } 0
      = ([Event.beforeWait
            ((buildConfig []).sleepDuration { cancelledAfterBeforeWait := true }
              "before")], 0)
    ∧ Event.invoke ∉ (Delay (fun (_ : Request) (n : Nat) => n + 1) []
        { cancelledAfterBeforeWait := true } 0).1
    ∧ ∀ d, Event.afterWait d ∉ (Delay (fun (_ : Request) (n : Nat) => n + 1) []
        { cancelledAfterBeforeWait := true } 0).1 :=
  cancelledEarly_skips_handler (fun _ n => n + 1) []
    { cancelledAfterBeforeWait := true } 0 rfl

/-- C7: for every request that completes the wrapped handler (the first
`isDone` check passed) and whose cancellation signal has fired by the
second check, the after-wait is skipped: the closure returns at once with
the handler's response. -/
theorem cancelledLate_skips_afterWait {Resp : Type}
    (h : Request → Resp → Resp) (opts : List Opt) (r : Request) (resp : Resp)
    (h1 : isDone r .afterBeforeWait = false)
    (h2 : isDone r .afterHandler = true) :
    Delay h opts r resp
      = ([Event.beforeWait ((buildConfig opts).sleepDuration r "before"),
          Event.invoke], h r resp)
    ∧ ∀ d, Event.afterWait d ∉ (Delay h opts r resp).1 := by
  constructor <;> simp [Delay, delayedHandler, h1, h2]

/-- Witness for the C7 theorem at a concrete request cancelled between
the handler's return and the second check. -/
theorem cancelledLate_skips_afterWait_witness :
    Delay (fun (_ : Request) (n : Nat) => n + 1) []
        { cancelledAfterHandler := true } 0
      = ([Event.beforeWait
            ((buildConfig []).sleepDuration { cancelledAfterHandler := true }
              "before"), Event.invoke], 1)
    ∧ ∀ d, Event.afterWait d ∉ (Delay (fun (_ : Request) (n : Nat) => n + 1) []
        { cancelledAfterHandler := true } 0).1 :=
  cancelledLate_skips_afterWait (fun _ n => n + 1) []
    { cancelledAfterHandler := true } 0 rfl rfl

/-- C9: for every configuration and every request on which the wrapped
handler runs, the wrapper hands the handler exactly the request and the
response state it received and writes nothing itself: the final response
state is exactly `h r resp`, for an arbitrary response type and an
arbitrary handler. -/
theorem response_is_handlers_alone {Resp : Type}
    (h : Request → Resp → Resp) (opts : List Opt) (r : Request) (resp : Resp)
    (h1 : isDone r .afterBeforeWait = false) :
    (Delay h opts r resp).2 = h r resp :=
  (delayedHandler_runs (buildConfig opts) h r resp h1).2

/-- Witness for the C9 theorem at a concrete request and handler. -/
theorem response_is_handlers_alone_witness :
    (Delay (fun (_ : Request) (n : Nat) => n + 1) [] {} 0).2
      = (fun (_ : Request) (n : Nat) => n + 1) {} 0 :=
  response_is_handlers_alone (fun _ n => n + 1) [] {} 0 rfl

/-- C2 counterexample: under `Fixed(-1, 0)` the duration the sleep step
resolves for the before phase is negative - the cap is an upper clamp
only, so a negative fixed duration is not floored to zero. -/
theorem negative_fixed_resolves_negative :
    Config.resolvedDuration (buildConfig [Fixed (-1) 0]) {} "before" < 0 := by
  decide

/-- C2 amended: the duration resolved by the sleep step never exceeds
`cfg.max`, and it is non-negative - hence lies in `[0, cfg.max]` -
whenever the raw (fixed or header-parsed) duration and `cfg.max` are
non-negative; a negative raw duration, however, passes through the upper
clamp and yields a negative resolved duration. -/
theorem resolvedDuration_upper_clamped (cfg : Config) (r : Request)
    (boa : String) :
    cfg.resolvedDuration r boa ≤ cfg.max
    ∧ (0 ≤ cfg.rawDuration r boa → 0 ≤ cfg.max →
        0 ≤ cfg.resolvedDuration r boa) := by
  refine ⟨resolved_le_max cfg r boa, fun h1 h2 => ?_⟩
  unfold Config.resolvedDuration
  split
  · exact h2
  · exact h1

/-- Witness for the C2 amended theorem at the default configuration. -/
theorem resolvedDuration_upper_clamped_witness :
    Config.resolvedDuration (buildConfig []) {} "before" ≤ (buildConfig []).max
    ∧ 0 ≤ Config.resolvedDuration (buildConfig []) {} "before" :=
  ⟨(resolvedDuration_upper_clamped (buildConfig []) {} "before").1,
   (resolvedDuration_upper_clamped (buildConfig []) {} "before").2
     (by decide) (by decide)⟩

/-- C3: `Max(m)` sets the cap field to `m`, and for any configuration
whose cap is `m` the resolved before- and after-durations are each at
most `m` and their sum at most `2 * m`, whatever durations the fixed
fields or the request headers ask for. -/
theorem max_bounds_total_delay (cfg0 cfg : Config) (m : Duration)
    (r : Request) (hm : cfg.max = m) :
    (Max m cfg0).max = m
    ∧ cfg.resolvedDuration r "before" ≤ m
    ∧ cfg.resolvedDuration r "after" ≤ m
    ∧ cfg.resolvedDuration r "before" + cfg.resolvedDuration r "after"
        ≤ 2 * m := by
  subst hm
  have hb := resolved_le_max cfg r "before"
  have ha := resolved_le_max cfg r "after"
  refine ⟨rfl, hb, ha, ?_⟩
  calc cfg.resolvedDuration r "before" + cfg.resolvedDuration r "after"
      ≤ cfg.max + cfg.max := add_le_add hb ha
    _ = 2 * cfg.max := (two_mul cfg.max).symm

/-- Witness for the C3 theorem: fixed durations of 30s each, capped by
`Max(5ns)`. -/
theorem max_bounds_total_delay_witness :
    (Max 5 (buildConfig [])).max = 5
    ∧ Config.resolvedDuration
        (buildConfig [Fixed 30000000000 30000000000, Max 5]) {} "before" ≤ 5
    ∧ Config.resolvedDuration
        (buildConfig [Fixed 30000000000 30000000000, Max 5]) {} "after" ≤ 5
    ∧ Config.resolvedDuration
          (buildConfig [Fixed 30000000000 30000000000, Max 5]) {} "before"
        + Config.resolvedDuration
          (buildConfig [Fixed 30000000000 30000000000, Max 5]) {} "after"
        ≤ 2 * 5 :=
  max_bounds_total_delay (buildConfig [])
    (buildConfig [Fixed 30000000000 30000000000, Max 5]) 5 {} (by decide)

/-- C4: when `headerPrefix` is non-empty, the fixed durations are ignored
for resolution: applying a `Fixed` option changes nothing about the
resolved duration, and the raw duration is read exclusively from the
request header named `prefix ++ "-" ++ phase`. -/
theorem header_mode_ignores_fixed (cfg : Config) (b a : Duration)
    (r : Request) (boa : String) (hp : cfg.headerPrefix ≠ "") :
    Config.resolvedDuration (Fixed b a cfg) r boa = cfg.resolvedDuration r boa
    ∧ cfg.rawDuration r boa
        = (readHeaderDuration r (cfg.headerPrefix ++ "-" ++ boa)).1 := by
  constructor
  · simp [Fixed, Config.resolvedDuration, Config.rawDuration, hp]
  · simp [Config.rawDuration, hp]

/-- Witness for the C4 theorem: header mode with prefix "delay", a
request asking for 5s before, and a conflicting `Fixed(7, 8)`. -/
theorem header_mode_ignores_fixed_witness :
    Config.resolvedDuration
        (Fixed 7 8 (buildConfig [Header "delay"]))
        { headers := [("delay-before", "5s")] } "before"
      = Config.resolvedDuration (buildConfig [Header "delay"])
          { headers := [("delay-before", "5s")] } "before"
    ∧ Config.rawDuration (buildConfig [Header "delay"])
          { headers := [("delay-before", "5s")] } "before"
        = (readHeaderDuration { headers := [("delay-before", "5s")] }
            ((buildConfig [Header "delay"]).headerPrefix ++ "-" ++ "before")).1 :=
  header_mode_ignores_fixed (buildConfig [Header "delay"]) 7 8
    { headers := [("delay-before", "5s")] } "before" (by decide)

/-- C5 counterexample: in header mode with `Max(-1)`, a request with no
delay headers does not resolve to a zero duration - the zero read for
the absent header is dragged down to the negative cap by the upper
clamp. -/
theorem absent_header_negative_max_not_zero :
    Config.resolvedDuration (buildConfig [Header "delay", Max (-1)]) {}
      "before" ≠ 0 := by
  decide

/-- C5 amended: in header mode, a phase whose header is absent or
unparsable gets a raw duration of zero and - provided `maxDuration` is
non-negative, as it is by default - a resolved duration of zero (with a
negative max, the clamp returns the max itself); no error reaches the
caller: the delayed handler still completes, and when the request is not
cancelled the wrapped handler runs and the response is its output. -/
theorem absent_or_bad_header_resolves_zero {Resp : Type} (cfg : Config)
    (h : Request → Resp → Resp) (r : Request) (resp : Resp) (boa : String)
    (hp : cfg.headerPrefix ≠ "")
    (hv : r.headerGet (cfg.headerPrefix ++ "-" ++ boa) = ""
          ∨ parseDuration (r.headerGet (cfg.headerPrefix ++ "-" ++ boa)) = none) :
    cfg.rawDuration r boa = 0
    ∧ (0 ≤ cfg.max → cfg.resolvedDuration r boa = 0)
    ∧ (isDone r .afterBeforeWait = false →
        Event.invoke ∈ (delayedHandler cfg h r resp).1
        ∧ (delayedHandler cfg h r resp).2 = h r resp) := by
  have hraw : cfg.rawDuration r boa = 0 := by
    rw [Config.rawDuration, if_pos hp]
    rcases hv with hv | hv <;> simp [readHeaderDuration, hv]
  refine ⟨hraw, fun hmax => ?_, fun h1 => delayedHandler_runs cfg h r resp h1⟩
  rw [Config.resolvedDuration, hraw, if_neg (not_lt.mpr hmax)]

/-- Witness for the C5 amended theorem: header mode with prefix "delay"
and a malformed header value "oops". -/
theorem absent_or_bad_header_resolves_zero_witness :
    Config.rawDuration (buildConfig [Header "delay"])
        { headers := [("delay-before", "oops")] } "before" = 0
    ∧ Config.resolvedDuration (buildConfig [Header "delay"])
        { headers := [("delay-before", "oops")] } "before" = 0
    ∧ (Event.invoke ∈ (delayedHandler (buildConfig [Header "delay"])
          (fun (_ : Request) (n : Nat) => n + 1)
          { headers := [("delay-before", "oops")] } 0).1
       ∧ (delayedHandler (buildConfig [Header "delay"])
          (fun (_ : Request) (n : Nat) => n + 1)
          { headers := [("delay-before", "oops")] } 0).2
         = (fun (_ : Request) (n : Nat) => n + 1)
            { headers := [("delay-before", "oops")] } 0) :=
  have happ := absent_or_bad_header_resolves_zero
    (buildConfig [Header "delay"]) (fun (_ : Request) (n : Nat) => n + 1)
    { headers := [("delay-before", "oops")] } 0 "before" (by decide)
    (Or.inr (by decide))
  ⟨happ.1, happ.2.1 (by decide), happ.2.2 rfl⟩

/-- C6: the condition predicates are checked in list order - the order
the `Condition` options were applied, since each appends at the end -
short-circuiting at the first `false`: whatever predicates follow it,
`checkConditions` is false, the sleep step adds zero delay in every
phase, and when the request is not cancelled the wrapped handler still
runs and the response is its output. -/
theorem failed_condition_means_no_delay {Resp : Type} (cfg : Config)
    (h : Request → Resp → Resp) (r : Request) (resp : Resp)
    (ps₁ ps₂ : List (Request → Bool)) (p : Request → Bool)
    (hcond : cfg.conditions = ps₁ ++ p :: ps₂)
    (hps₁ : ∀ q ∈ ps₁, q r = true) (hp : p r = false) :
    cfg.checkConditions r = false
    ∧ (∀ boa, cfg.sleepDuration r boa = 0)
    ∧ (isDone r .afterBeforeWait = false →
        Event.invoke ∈ (delayedHandler cfg h r resp).1
        ∧ (delayedHandler cfg h r resp).2 = h r resp)
    ∧ (∀ (cfg2 : Config) (q : Request → Bool),
        (Condition q cfg2).conditions = cfg2.conditions ++ [q]) := by
  have hcc : cfg.checkConditions r = false := by
    rw [Config.checkConditions, hcond]
    exact checkList_short_circuits r p hp ps₁ ps₂ hps₁
  refine ⟨hcc, fun boa => ?_, fun h1 => delayedHandler_runs cfg h r resp h1,
    fun cfg2 q => rfl⟩
  rw [Config.sleepDuration, hcc]
  simp

/-- Witness for the C6 theorem: one condition rejecting every request. -/
theorem failed_condition_means_no_delay_witness :
    Config.checkConditions (buildConfig [Condition (fun _ => false)]) {} = false
    ∧ (∀ boa,
        Config.sleepDuration (buildConfig [Condition (fun _ => false)]) {} boa
          = 0)
    ∧ (Event.invoke ∈ (delayedHandler (buildConfig [Condition (fun _ => false)])
          (fun (_ : Request) (n : Nat) => n + 1) {} 0).1
       ∧ (delayedHandler (buildConfig [Condition (fun _ => false)])
          (fun (_ : Request) (n : Nat) => n + 1) {} 0).2
         = (fun (_ : Request) (n : Nat) => n + 1) {} 0) :=
  have happ := failed_condition_means_no_delay
    (buildConfig [Condition (fun _ => false)])
    (fun (_ : Request) (n : Nat) => n + 1) {} 0 [] [] (fun _ => false) rfl
    (fun q hq => absurd hq (List.not_mem_nil q)) rfl
  ⟨happ.1, happ.2.1, happ.2.2.1 rfl⟩

/-- C8: `Delay` with zero options builds exactly the documented default
configuration - 1s before, 0s after, no header prefix, 20s cap, no
conditions - and every request then resolves a before-duration of 1s and
an after-duration of 0. -/
theorem default_config_and_resolution :
    buildConfig []
      = { fixedDurationBefore := 1000000000, fixedDurationAfter := 0,
          headerPrefix := "", max := 20000000000, conditions := [] }
    ∧ ∀ r : Request,
        Config.resolvedDuration (buildConfig []) r "before" = 1000000000
        ∧ Config.resolvedDuration (buildConfig []) r "after" = 0 := by
  refine ⟨rfl, fun r => ⟨?_, ?_⟩⟩ <;>
    simp [buildConfig, Config.resolvedDuration, Config.rawDuration]

/-- C10: header mode is active only for a non-empty prefix. Applying
`Header("")` to options that left the prefix empty changes the built
configuration not at all, and under an empty prefix the raw duration of
each phase is exactly the fixed duration for that phase. -/
theorem empty_header_prefix_uses_fixed (cfg : Config) (opts : List Opt)
    (r : Request) (hp : (buildConfig opts).headerPrefix = "") :
    buildConfig (opts ++ [Header ""]) = buildConfig opts
    ∧ Config.rawDuration (Header "" cfg) r "before" = cfg.fixedDurationBefore
    ∧ Config.rawDuration (Header "" cfg) r "after" = cfg.fixedDurationAfter := by
  refine ⟨?_, ?_, ?_⟩
  · have h1 : buildConfig (opts ++ [Header ""])
        = Header "" (buildConfig opts) := by
      simp [buildConfig]
    rw [h1]
    generalize buildConfig opts = c0 at hp ⊢
    cases c0
    simp_all [Header]
  · simp [Config.rawDuration, Header]
  · simp [Config.rawDuration, Header]

/-- Witness for the C10 theorem: `Fixed(5, 6)` then `Header("")`. -/
theorem empty_header_prefix_uses_fixed_witness :
    buildConfig ([Fixed 5 6] ++ [Header ""]) = buildConfig [Fixed 5 6]
    ∧ Config.rawDuration (Header "" (buildConfig [])) {} "before"
        = (buildConfig []).fixedDurationBefore
    ∧ Config.rawDuration (Header "" (buildConfig [])) {} "after"
        = (buildConfig []).fixedDurationAfter :=
  empty_header_prefix_uses_fixed (buildConfig []) [Fixed 5 6] {} (by decide)

end Slowdown
